import Mathlib

/-!
Shallow embedding of the pycex Binance spot client core
(`bnc/rest.py` and `bnc/spot.py`): the request-parameter normalizer,
the HTTP transport client with its retry protocol, the filter precision
analyzer and the exchange-symbol domain mapper, together with theorems
settling the specification claims about them.
-/

namespace PyCex

/-- Decoded JSON values, the result of `json.loads` on a response body. -/
inductive JValue where
  | null
  | bool (b : Bool)
  | num (n : Int)
  | str (s : String)
  | arr (elems : List JValue)
  | obj (fields : List (String × JValue))
  deriving Repr

/-- Scalar Python values that can appear as request parameters or list items
(`None`, `bool`, `int`, `str`). -/
inductive SValue where
  | null
  | bool (b : Bool)
  | int (n : Int)
  | str (s : String)
  deriving Repr, DecidableEq

/-- A request-parameter value: a scalar or a Python list of scalars. -/
inductive PValue where
  | scalar (v : SValue)
  | list (items : List SValue)
  deriving Repr, DecidableEq

/-- Python `str()` of a scalar value. -/
def pyStrScalar : SValue → String
  | .null => "None"
  | .bool b => if b then "True" else "False"
  | .int n => toString n
  | .str s => s

/-- One chunk appended for a list item in `tidy_request_params`:
string items contribute a double-quoted literal plus a trailing comma,
non-string items contribute bare `str(item)` (source appends no comma there). -/
def listItemChunk : SValue → String
  | .str s => "\"" ++ s ++ "\","
  | v => pyStrScalar v

/-- The list-serialization loop of `tidy_request_params`
(`bnc/rest.py`, lines 36-46): start from `[`, append each item chunk,
drop the final character, close with `]`. -/
def serializeList (items : List SValue) : String :=
  (("[" ++ String.join (items.map listItemChunk)).dropRight 1) ++ "]"

/-- Per-value normalization of `tidy_request_params`: booleans become
lowercase `true`/`false`, non-empty lists are serialized, everything
else passes through. -/
def tidyValue : PValue → PValue
  | .scalar (.bool b) => .scalar (.str (if b then "true" else "false"))
  | .list items => if items.length > 0 then .scalar (.str (serializeList items)) else .list items
  | v => v

/-- `tidy_request_params` (`bnc/rest.py`, lines 31-47): drop entries whose
value is `None`, then normalize each remaining value. The parameter
mapping is an insertion-ordered association list, like a Python dict. -/
def tidy_request_params (params : List (String × PValue)) : List (String × PValue) :=
  (params.filter (fun kv => kv.2 ≠ .scalar .null)).map (fun kv => (kv.1, tidyValue kv.2))

/-- Python `"s".split(".")` on the character list of a string:
always returns at least one (possibly empty) piece. -/
def splitOnDot : List Char → List (List Char)
  | [] => [[]]
  | c :: rest =>
    if c = '.' then [] :: splitOnDot rest
    else
      match splitOnDot rest with
      | [] => [[c]]
      | p :: ps => (c :: p) :: ps

/-- Python `s.find("1")`: index of the first `'1'`, or `None` standing for `-1`. -/
def findOne : List Char → Option Nat
  | [] => Option.none
  | c :: rest => if c = '1' then some 0 else (findOne rest).map (· + 1)

/-- `get_prec_just_for_binance_filter` (`bnc/spot.py`, lines 100-130):
split on the decimal point; if the integer part has a `'1'` at index `i`
return `i - len(integer_part) + 1`; else if there is no fractional part
raise; else if the first fractional piece has a `'1'` at index `j` return
`j + 1`; else raise. `splitOnDot` never returns `[]`, so the first match
arm is unreachable. -/
def get_prec_just_for_binance_filter (size : String) : Except String Int :=
  match splitOnDot size.data with
  | [] => .error ("unknown size: " ++ size)
  | integer_part :: rest =>
    match findOne integer_part with
    | some i => .ok ((i : Int) - integer_part.length + 1)
    | Option.none =>
      match rest with
      | [] => .error ("unknown size: " ++ size)
      | decimal_part :: _ =>
        match findOne decimal_part with
        | some j => .ok ((j : Int) + 1)
        | Option.none => .error ("unknown size: " ++ size)

example : get_prec_just_for_binance_filter "100" = .ok (-2) := by rfl
example : get_prec_just_for_binance_filter "0.001" = .ok 3 := by rfl
example : get_prec_just_for_binance_filter "0.00100000" = .ok 3 := by rfl
example : get_prec_just_for_binance_filter "1.00000000" = .ok 0 := by rfl
example : get_prec_just_for_binance_filter "2.5" = .error "unknown size: 2.5" := by rfl
example : tidy_request_params
    [("a", .scalar (.bool true)), ("b", .scalar .null), ("c", .list [.int 1, .int 2, .int 3])]
    = [("a", .scalar (.str "true")), ("c", .scalar (.str "[12]"))] := by rfl
example : tidy_request_params [("symbols", .list [.str "BTCUSDT", .str "ETHUSDT"])]
    = [("symbols", .scalar (.str "[\"BTCUSDT\",\"ETHUSDT\"]"))] := by rfl

/-! ## Transport client (`bnc/rest.py`, `request`) -/

/-- A raw HTTP response body as bytes, classified by what `json.loads`
does with it: empty (`b""`, falsy), well-formed JSON, or undecodable. -/
inductive Body where
  | empty
  | json (j : JValue)
  | malformed
  deriving Repr

/-- A raw HTTP response: status code, reason phrase and body. -/
structure HttpResp where
  status_code : Nat
  reason : String
  body : Body
  deriving Repr

/-- Outcome of one `requests.request` invocation: a connection-level
failure (`requests.exceptions.ConnectionError`) or a response. -/
inductive TResult where
  | connError
  | resp (r : HttpResp)
  deriving Repr

/-- The distinct failure kinds `request` can raise. Source raises plain
`Exception`s with distinguishing messages; constructors mirror them:
`typeError` is the `TypeError` from assigning into `None` headers,
`malformedError` the two `Failed to parse ... response` raises,
`attrError` the `AttributeError` from `.get` on a non-dict JSON value,
`apiError` the `Request failed: {code} {msg}` raise, and
`retriesExhausted` the `Request failed after {retry} retries` raise that
wraps the underlying `ConnectionError` cause. -/
inductive ReqError where
  | typeError
  | malformedError (body : Body)
  | attrError
  | apiError (code : JValue) (msg : JValue)
  | retriesExhausted (retries : Nat)
  deriving Repr

/-- The `Response` dataclass envelope (`bnc/rest.py`, lines 21-28).
`code` and `msg` hold whatever `error_data.get` returned, so they are
modelled as JSON values; the success path stores the integer `0` and
the empty string. -/
structure Response where
  status_code : Nat
  status : String
  code : JValue
  msg : JValue
  data : Option JValue
  deriving Repr

/-- The `Request` dataclass (`bnc/rest.py`, lines 8-18). `headers` and
`params` default to `None`. -/
structure Request where
  base_url : String
  path : String
  method : String := "GET"
  headers : Option (List (String × String)) := Option.none
  params : Option (List (String × PValue)) := Option.none
  api_key : Option String := Option.none
  resp_in_microseconds : Bool := false
  retry : Nat := 0

/-- Python `d.get(key, dflt)` over an association-list dict. -/
def jget (fields : List (String × JValue)) (key : String) (dflt : JValue) : JValue :=
  match fields.lookup key with
  | some v => v
  | Option.none => dflt

/-- Python dict assignment `hs[k] = v`: update in place or append. -/
def setHeader (hs : List (String × String)) (k v : String) : List (String × String) :=
  if hs.any (fun p => p.1 = k) then hs.map (fun p => if p.1 = k then (p.1, v) else p)
  else hs ++ [(k, v)]

/-- The header-injection step (`bnc/rest.py`, lines 72-73): when the
microsecond flag is set, `req.headers["X-MBX-TIME-UNIT"] = "MICROSECOND"`
raises `TypeError` if `headers` is `None` (returns `none` here), else
yields the updated headers. -/
def injectHeaders (micro : Bool) (hdrs : Option (List (String × String))) :
    Option (Option (List (String × String))) :=
  if micro then
    match hdrs with
    | Option.none => Option.none
    | some hs => some (some (setHeader hs "X-MBX-TIME-UNIT" "MICROSECOND"))
  else some hdrs

/-- Python `resp.code == -1021` where `resp.code` is a decoded JSON value. -/
def isNeg1021 : JValue → Bool
  | .num n => n = -1021
  | _ => false

/-- What one attempt decides: a terminal result, or sleep-and-retry. -/
inductive Step where
  | final (res : Except ReqError Response)
  | again
  deriving Repr

/-- Classification of one HTTP attempt's outcome (`bnc/rest.py`,
lines 82-126): connection errors retry while `retry < 5` and otherwise
raise `retriesExhausted`; a non-200 response with a JSON-object body
retries on code `-1021` while `retry < 5` and otherwise raises
`apiError`; an unparsable (or empty, also unparsable) non-200 body
raises `malformedError`; a non-object non-200 body makes
`error_data.get` raise `attrError`; a 200 response yields the success
envelope, with an empty body leaving `data` as `None` and an unparsable
body raising `malformedError`. -/
def classify (tr : TResult) (retry : Nat) : Step :=
  match tr with
  | .connError =>
    if retry < 5 then .again else .final (.error (.retriesExhausted retry))
  | .resp r =>
    if r.status_code ≠ 200 then
      match r.body with
      | .json (.obj fields) =>
        let code := jget fields "code" (.num 0)
        let msg := jget fields "msg" (.str "")
        if isNeg1021 code ∧ retry < 5 then .again
        else .final (.error (.apiError code msg))
      | .json _ => .final (.error .attrError)
      | b => .final (.error (.malformedError b))
    else
      match r.body with
      | .empty => .final (.ok ⟨r.status_code, r.reason, .num 0, .str "", Option.none⟩)
      | .json j => .final (.ok ⟨r.status_code, r.reason, .num 0, .str "", some j⟩)
      | .malformed => .final (.error (.malformedError .malformed))

/-- A `classify` result is `again` only below the retry bound. -/
theorem classify_again {tr : TResult} {retry : Nat} (h : classify tr retry = .again) :
    retry < 5 := by
  unfold classify at h
  repeat' split at h
  all_goals first | tauto | simp_all

/-- The observable outcome of one logical call: the final result, the
number of HTTP attempts issued, and the sequence of backoff sleeps in
seconds. -/
structure RunResult where
  result : Except ReqError Response
  attempts : Nat
  sleeps : List Nat
  deriving Repr

/-- The recursive body of `request` (`bnc/rest.py`, lines 50-126),
parameterized by a transport oracle giving the outcome of the `n`-th
HTTP attempt. Each level re-runs the header injection (the source
mutates `req.headers`, so the updated headers flow into the recursive
call), issues one attempt, and either finishes or sleeps 1 second,
increments `retry` and resubmits — exactly the source's tail recursion
on the shared descriptor. -/
def requestGo (t : Nat → TResult) (micro : Bool) (hdrs : Option (List (String × String)))
    (attempt retry : Nat) : RunResult :=
  match injectHeaders micro hdrs with
  | Option.none => ⟨.error .typeError, 0, []⟩
  | some hdrs1 =>
    match h : classify (t attempt) retry with
    | .final res => ⟨res, 1, []⟩
    | .again =>
      let r := requestGo t micro hdrs1 (attempt + 1) (retry + 1)
      ⟨r.result, r.attempts + 1, 1 :: r.sleeps⟩
termination_by 5 - retry
decreasing_by
  have := classify_again h
  omega

/-- `request` (`bnc/rest.py`, lines 50-126) on a request descriptor,
relative to a transport oracle. -/
def request (t : Nat → TResult) (req : Request) : RunResult :=
  requestGo t req.resp_in_microseconds req.headers 0 req.retry

theorem requestGo_typeError (t : Nat → TResult) (micro : Bool)
    (hdrs : Option (List (String × String))) (a retry : Nat)
    (hh : injectHeaders micro hdrs = Option.none) :
    requestGo t micro hdrs a retry = ⟨.error .typeError, 0, []⟩ := by
  rw [requestGo, hh]

theorem requestGo_final (t : Nat → TResult) (micro : Bool)
    (hdrs hdrs1 : Option (List (String × String))) (a retry : Nat)
    (hh : injectHeaders micro hdrs = some hdrs1)
    (res : Except ReqError Response) (hc : classify (t a) retry = .final res) :
    requestGo t micro hdrs a retry = ⟨res, 1, []⟩ := by
  rw [requestGo, hh]
  split
  · next heq => simp at heq
  · next hdrs2 heq =>
      injection heq with h2
      subst h2
      split
      · next res2 heq2 =>
          rw [hc] at heq2
          cases heq2
          rfl
      · next heq2 =>
          rw [hc] at heq2
          simp at heq2

theorem requestGo_again (t : Nat → TResult) (micro : Bool)
    (hdrs hdrs1 : Option (List (String × String))) (a retry : Nat)
    (hh : injectHeaders micro hdrs = some hdrs1)
    (hc : classify (t a) retry = .again) :
    requestGo t micro hdrs a retry =
      ⟨(requestGo t micro hdrs1 (a + 1) (retry + 1)).result,
       (requestGo t micro hdrs1 (a + 1) (retry + 1)).attempts + 1,
       1 :: (requestGo t micro hdrs1 (a + 1) (retry + 1)).sleeps⟩ := by
  rw [requestGo, hh]
  split
  · next heq => simp at heq
  · next hdrs2 heq =>
      injection heq with h2
      subst h2
      split
      · next res2 heq2 =>
          rw [hc] at heq2
          simp at heq2
      · next heq2 => rfl

/-- A successful header injection stays successful on the produced
headers, so every level of the retry recursion reaches the HTTP call. -/
theorem injectHeaders_preserved {micro : Bool} {hdrs hdrs1 : Option (List (String × String))}
    (h : injectHeaders micro hdrs = some hdrs1) :
    ∃ hdrs2, injectHeaders micro hdrs1 = some hdrs2 := by
  cases micro with
  | false => exact ⟨hdrs1, rfl⟩
  | true =>
    cases hdrs with
    | none => simp [injectHeaders] at h
    | some hs =>
      simp only [injectHeaders, if_true] at h
      injection h with h1
      refine ⟨some (setHeader (setHeader hs "X-MBX-TIME-UNIT" "MICROSECOND")
        "X-MBX-TIME-UNIT" "MICROSECOND"), ?_⟩
      rw [← h1]
      rfl

/-- When every attempt is a connection error, the call chain from retry
counter `retry = 5 - k` performs `k + 1` attempts, sleeps 1 second
before each of the `k` retries, and ends in `retriesExhausted 5`. -/
theorem requestGo_connAll (t : Nat → TResult) (ht : ∀ n, t n = .connError) (micro : Bool) :
    ∀ (k a retry : Nat), retry + k = 5 →
    ∀ (hdrs hdrs1 : Option (List (String × String))),
      injectHeaders micro hdrs = some hdrs1 →
      requestGo t micro hdrs a retry =
        ⟨.error (.retriesExhausted 5), k + 1, List.replicate k 1⟩ := by
  intro k
  induction k with
  | zero =>
    intro a retry h5 hdrs hdrs1 hh
    have hr : retry = 5 := by omega
    subst hr
    have hc : classify (t a) 5 = .final (.error (.retriesExhausted 5)) := by
      rw [ht a]; unfold classify; simp
    rw [requestGo_final t micro hdrs hdrs1 a 5 hh _ hc]
    rfl
  | succ k ih =>
    intro a retry h5 hdrs hdrs1 hh
    have hc : classify (t a) retry = .again := by
      rw [ht a]; unfold classify
      have : retry < 5 := by omega
      simp [this]
    rw [requestGo_again t micro hdrs hdrs1 a retry hh hc]
    obtain ⟨hdrs2, hh2⟩ := injectHeaders_preserved hh
    rw [ih (a + 1) (retry + 1) (by omega) hdrs1 hdrs2 hh2]
    simp [List.replicate_succ]

/-- C1: when the HTTP call fails at the transport level on every
attempt, a descriptor with retry counter 0 (and a header-injection step
that does not itself fail) sleeps 1 second before each resubmission
while the counter is below 5 and then fails terminally with a
`retriesExhausted` error after exactly 5 retries, i.e. 6 attempts. -/
theorem C1_connection_retry_exhaustion (t : Nat → TResult) (ht : ∀ n, t n = .connError)
    (req : Request) (hretry : req.retry = 0)
    (hok : req.resp_in_microseconds = false ∨ ∃ hs, req.headers = some hs) :
    request t req = ⟨.error (.retriesExhausted 5), 6, [1, 1, 1, 1, 1]⟩ := by
  unfold request
  obtain ⟨hdrs1, hh⟩ :
      ∃ h1, injectHeaders req.resp_in_microseconds req.headers = some h1 := by
    rcases hok with hm | ⟨hs, hhs⟩
    · exact ⟨req.headers, by simp [injectHeaders, hm]⟩
    · cases hmic : req.resp_in_microseconds
      · exact ⟨req.headers, by simp [injectHeaders]⟩
      · exact ⟨some (setHeader hs "X-MBX-TIME-UNIT" "MICROSECOND"),
          by simp [injectHeaders, hhs]⟩
  rw [hretry]
  rw [requestGo_connAll t ht req.resp_in_microseconds 5 0 0 (by omega)
    req.headers hdrs1 hh]
  rfl

/-- Witness for C1 at the all-failing transport and a concrete
descriptor with default headers and retry counter 0. -/
theorem C1_connection_retry_exhaustion_witness :
    request (fun _ => .connError)
      ⟨"https://api.binance.com", "/api/v3/time", "GET", Option.none, Option.none,
        Option.none, false, 0⟩ =
      ⟨.error (.retriesExhausted 5), 6, [1, 1, 1, 1, 1]⟩ :=
  C1_connection_retry_exhaustion (fun _ => .connError) (fun _ => rfl) _ rfl (Or.inl rfl)

/-- Classification of a non-200 response with a JSON-object body:
retry exactly when the exchange code is `-1021` and the counter is
below 5, otherwise the terminal `apiError`. -/
theorem classify_apiResp (sc : Nat) (hsc : sc ≠ 200) (rs : String)
    (fields : List (String × JValue)) (retry : Nat) :
    classify (.resp ⟨sc, rs, .json (.obj fields)⟩) retry =
      if isNeg1021 (jget fields "code" (.num 0)) ∧ retry < 5 then .again
      else .final (.error (.apiError (jget fields "code" (.num 0))
        (jget fields "msg" (.str "")))) := by
  unfold classify
  simp [hsc]

/-- Classification of a 200 response by its body. -/
theorem classify_ok (rs : String) (b : Body) (retry : Nat) :
    classify (.resp ⟨200, rs, b⟩) retry =
      .final (match b with
        | .empty => .ok ⟨200, rs, .num 0, .str "", Option.none⟩
        | .json j => .ok ⟨200, rs, .num 0, .str "", some j⟩
        | .malformed => .error (.malformedError .malformed)) := by
  cases b <;> rfl

/-- When every attempt yields a non-200 response whose JSON-object body
has code `-1021`, the call chain from retry counter `retry = 5 - k`
performs `k + 1` attempts, sleeps before each of the `k` retries, and
ends in the terminal `apiError` with the exchange code and message. -/
theorem requestGo_api1021All (t : Nat → TResult) (sc : Nat) (hsc : sc ≠ 200) (rs : String)
    (fields : List (String × JValue))
    (ht : ∀ n, t n = .resp ⟨sc, rs, .json (.obj fields)⟩)
    (hcode : jget fields "code" (.num 0) = .num (-1021)) (micro : Bool) :
    ∀ (k a retry : Nat), retry + k = 5 →
    ∀ (hdrs hdrs1 : Option (List (String × String))),
      injectHeaders micro hdrs = some hdrs1 →
      requestGo t micro hdrs a retry =
        ⟨.error (.apiError (.num (-1021)) (jget fields "msg" (.str ""))), k + 1,
         List.replicate k 1⟩ := by
  intro k
  induction k with
  | zero =>
    intro a retry h5 hdrs hdrs1 hh
    have hr : retry = 5 := by omega
    subst hr
    have hc : classify (t a) 5 =
        .final (.error (.apiError (.num (-1021)) (jget fields "msg" (.str "")))) := by
      rw [ht a, classify_apiResp sc hsc rs fields 5, hcode]
      simp
    rw [requestGo_final t micro hdrs hdrs1 a 5 hh _ hc]
    rfl
  | succ k ih =>
    intro a retry h5 hdrs hdrs1 hh
    have hc : classify (t a) retry = .again := by
      rw [ht a, classify_apiResp sc hsc rs fields retry, hcode]
      have hlt : retry < 5 := by omega
      simp [isNeg1021, hlt]
    rw [requestGo_again t micro hdrs hdrs1 a retry hh hc]
    obtain ⟨hdrs2, hh2⟩ := injectHeaders_preserved hh
    rw [ih (a + 1) (retry + 1) (by omega) hdrs1 hdrs2 hh2]
    simp [List.replicate_succ]

/-- C2: on a non-200 response whose body parses as a JSON object,
(1) when the exchange code is `-1021` and the retry counter is below 5,
the client sleeps 1 second, makes one attempt and resubmits with the
counter incremented; (2) for any other code, or once the counter has
reached 5, the call fails terminally with `apiError` carrying the
exchange code and message; (3) hence a `-1021` response on every
attempt, starting from counter 0, is retried exactly 5 times (6
attempts, 5 one-second sleeps) before the terminal `apiError`. -/
theorem C2_api_1021_retry (t : Nat → TResult) (sc : Nat) (hsc : sc ≠ 200) (rs : String)
    (fields : List (String × JValue))
    (ht : ∀ n, t n = .resp ⟨sc, rs, .json (.obj fields)⟩)
    (hdrs : Option (List (String × String))) :
    (∀ a retry, retry < 5 → jget fields "code" (.num 0) = .num (-1021) →
       requestGo t false hdrs a retry =
         ⟨(requestGo t false hdrs (a + 1) (retry + 1)).result,
          (requestGo t false hdrs (a + 1) (retry + 1)).attempts + 1,
          1 :: (requestGo t false hdrs (a + 1) (retry + 1)).sleeps⟩)
    ∧ (∀ a retry, isNeg1021 (jget fields "code" (.num 0)) = false ∨ 5 ≤ retry →
       requestGo t false hdrs a retry =
         ⟨.error (.apiError (jget fields "code" (.num 0)) (jget fields "msg" (.str ""))),
          1, []⟩)
    ∧ (jget fields "code" (.num 0) = .num (-1021) → ∀ a,
       requestGo t false hdrs a 0 =
         ⟨.error (.apiError (.num (-1021)) (jget fields "msg" (.str ""))), 6,
          [1, 1, 1, 1, 1]⟩) := by
  have hinj : injectHeaders false hdrs = some hdrs := rfl
  refine ⟨?_, ?_, ?_⟩
  · intro a retry hlt hcode
    have hc : classify (t a) retry = .again := by
      rw [ht a, classify_apiResp sc hsc rs fields retry, hcode]
      simp [isNeg1021, hlt]
    exact requestGo_again t false hdrs hdrs a retry hinj hc
  · intro a retry hcond
    have hc : classify (t a) retry =
        .final (.error (.apiError (jget fields "code" (.num 0))
          (jget fields "msg" (.str "")))) := by
      rw [ht a, classify_apiResp sc hsc rs fields retry]
      rcases hcond with hfalse | hge
      · simp [hfalse]
      · have : ¬ retry < 5 := by omega
        simp [this]
    exact requestGo_final t false hdrs hdrs a retry hinj _ hc
  · intro hcode a
    have := requestGo_api1021All t sc hsc rs fields ht hcode false 5 a 0 (by omega)
      hdrs hdrs hinj
    rw [this]
    rfl

/-- Witness for C2 at the HTTP-409 clock-skew response from the
specification, retried 5 times then surfacing the terminal `apiError`. -/
theorem C2_api_1021_retry_witness :
    requestGo
      (fun _ => .resp ⟨409, "Conflict",
        .json (.obj [("code", .num (-1021)), ("msg", .str "Timestamp outside recvWindow")])⟩)
      false Option.none 0 0 =
      ⟨.error (.apiError (.num (-1021)) (.str "Timestamp outside recvWindow")), 6,
       [1, 1, 1, 1, 1]⟩ :=
  (C2_api_1021_retry
    (fun _ => .resp ⟨409, "Conflict",
      .json (.obj [("code", .num (-1021)), ("msg", .str "Timestamp outside recvWindow")])⟩)
    409 (by decide) "Conflict"
    [("code", .num (-1021)), ("msg", .str "Timestamp outside recvWindow")]
    (fun _ => rfl) Option.none).2.2 rfl 0

/-- C3: on a 200 response the body is decoded into the envelope's
payload: an empty body leaves the payload `None`, a JSON body becomes
the payload, an undecodable body is the terminal `malformedError`; the
success envelope carries code `0` and message `""`; and in particular a
body `\x7b"serverTime": 1700000000000\x7d` yields an envelope whose
payload field `serverTime` is `1700000000000`. -/
theorem C3_success_envelope (t : Nat → TResult) (rs : String) (b : Body)
    (hdrs : Option (List (String × String))) (a retry : Nat)
    (ht : t a = .resp ⟨200, rs, b⟩) :
    (b = .empty →
       requestGo t false hdrs a retry =
         ⟨.ok ⟨200, rs, .num 0, .str "", Option.none⟩, 1, []⟩)
    ∧ (∀ j, b = .json j →
       requestGo t false hdrs a retry = ⟨.ok ⟨200, rs, .num 0, .str "", some j⟩, 1, []⟩)
    ∧ (b = .malformed →
       requestGo t false hdrs a retry = ⟨.error (.malformedError .malformed), 1, []⟩)
    ∧ (b = .json (.obj [("serverTime", .num 1700000000000)]) →
       ∃ resp, requestGo t false hdrs a retry = ⟨.ok resp, 1, []⟩ ∧
         resp.code = .num 0 ∧ resp.msg = .str "" ∧
         ∃ fields, resp.data = some (.obj fields) ∧
           jget fields "serverTime" .null = .num 1700000000000) := by
  have hinj : injectHeaders false hdrs = some hdrs := rfl
  have hc := classify_ok rs b retry
  rw [← ht] at hc
  refine ⟨?_, ?_, ?_, ?_⟩
  · intro hb
    subst hb
    exact requestGo_final t false hdrs hdrs a retry hinj _ hc
  · intro j hb
    subst hb
    exact requestGo_final t false hdrs hdrs a retry hinj _ hc
  · intro hb
    subst hb
    exact requestGo_final t false hdrs hdrs a retry hinj _ hc
  · intro hb
    subst hb
    refine ⟨⟨200, rs, .num 0, .str "", some (.obj [("serverTime", .num 1700000000000)])⟩,
      requestGo_final t false hdrs hdrs a retry hinj _ hc, rfl, rfl,
      [("serverTime", .num 1700000000000)], rfl, rfl⟩

/-- Witness for C3 at a transport answering 200 with the server-time
body on the first attempt. -/
theorem C3_success_envelope_witness :
    requestGo
      (fun _ => .resp ⟨200, "OK", .json (.obj [("serverTime", .num 1700000000000)])⟩)
      false Option.none 0 0 =
      ⟨.ok ⟨200, "OK", .num 0, .str "", some (.obj [("serverTime", .num 1700000000000)])⟩,
       1, []⟩ :=
  (C3_success_envelope
    (fun _ => .resp ⟨200, "OK", .json (.obj [("serverTime", .num 1700000000000)])⟩)
    "OK" (.json (.obj [("serverTime", .num 1700000000000)])) Option.none 0 0 rfl).2.1
    (.obj [("serverTime", .num 1700000000000)]) rfl

/-- Attempt and sleep bounds for the retry recursion: from retry counter
`retry`, at most `k + 1` attempts and `k` sleeps happen whenever
`5 - retry ≤ k`. -/
theorem requestGo_bound (t : Nat → TResult) (micro : Bool) :
    ∀ (k : Nat) (hdrs : Option (List (String × String))) (a retry : Nat), 5 - retry ≤ k →
      (requestGo t micro hdrs a retry).attempts ≤ k + 1 ∧
      (requestGo t micro hdrs a retry).sleeps.length ≤ k := by
  intro k
  induction k with
  | zero =>
    intro hdrs a retry h5
    cases hinj : injectHeaders micro hdrs with
    | none =>
      rw [requestGo_typeError t micro hdrs a retry hinj]
      exact ⟨Nat.zero_le _, Nat.zero_le _⟩
    | some hdrs1 =>
      cases hcls : classify (t a) retry with
      | final res =>
        rw [requestGo_final t micro hdrs hdrs1 a retry hinj res hcls]
        exact ⟨le_refl _, Nat.zero_le _⟩
      | again =>
        have := classify_again hcls
        omega
  | succ k ih =>
    intro hdrs a retry h5
    cases hinj : injectHeaders micro hdrs with
    | none =>
      rw [requestGo_typeError t micro hdrs a retry hinj]
      exact ⟨Nat.zero_le _, Nat.zero_le _⟩
    | some hdrs1 =>
      cases hcls : classify (t a) retry with
      | final res =>
        rw [requestGo_final t micro hdrs hdrs1 a retry hinj res hcls]
        exact ⟨Nat.succ_le_succ (Nat.zero_le _), Nat.zero_le _⟩
      | again =>
        rw [requestGo_again t micro hdrs hdrs1 a retry hinj hcls]
        have hrec := ih hdrs1 (a + 1) (retry + 1) (by omega)
        dsimp only
        constructor
        · omega
        · simp only [List.length_cons]
          omega

/-- C9: the connection-error retries and the `-1021` retries share the
descriptor's single retry counter, so one logical call starting at
counter 0 issues at most 6 HTTP attempts and sleeps at most 5 times,
whatever mix of failure kinds the transport produces. -/
theorem C9_retry_budget_bound (t : Nat → TResult) (micro : Bool)
    (hdrs : Option (List (String × String))) (a : Nat) :
    (requestGo t micro hdrs a 0).attempts ≤ 6 ∧
    (requestGo t micro hdrs a 0).sleeps.length ≤ 5 :=
  requestGo_bound t micro 5 hdrs a 0 (by omega)

/-- C10: a descriptor with the microsecond flag set and `None` headers
(the default) fails with the `TypeError` from the header assignment,
with zero HTTP attempts issued. -/
theorem C10_micro_header_type_error (t : Nat → TResult) (req : Request)
    (hm : req.resp_in_microseconds = true) (hh : req.headers = Option.none) :
    request t req = ⟨.error .typeError, 0, []⟩ := by
  unfold request
  exact requestGo_typeError t req.resp_in_microseconds req.headers 0 req.retry
    (by rw [hm, hh]; rfl)

/-- Witness for C10 at a concrete microsecond-flagged descriptor with
default (`None`) headers. -/
theorem C10_micro_header_type_error_witness :
    request (fun _ => .connError)
      ⟨"https://api.binance.com", "/api/v3/time", "GET", Option.none, Option.none,
        Option.none, true, 0⟩ =
      ⟨.error .typeError, 0, []⟩ :=
  C10_micro_header_type_error (fun _ => .connError) _ rfl rfl

/-! ## Lemmas about `splitOnDot` and `findOne` -/

theorem splitOnDot_no_dot (l : List Char) (h : '.' ∉ l) : splitOnDot l = [l] := by
  induction l with
  | nil => rfl
  | cons c rest ih =>
    have hc : ¬ c = '.' := fun he => h (he ▸ List.mem_cons_self c rest)
    have hr : '.' ∉ rest := fun hm => h (List.mem_cons_of_mem c hm)
    unfold splitOnDot
    rw [if_neg hc, ih hr]

theorem splitOnDot_single_dot (l1 l2 : List Char) (h1 : '.' ∉ l1) (h2 : '.' ∉ l2) :
    splitOnDot (l1 ++ '.' :: l2) = [l1, l2] := by
  induction l1 with
  | nil =>
    show splitOnDot ('.' :: l2) = [[], l2]
    unfold splitOnDot
    rw [if_pos rfl, splitOnDot_no_dot l2 h2]
  | cons c rest ih =>
    have hc : ¬ c = '.' := fun he => h1 (he ▸ List.mem_cons_self c rest)
    have hr : '.' ∉ rest := fun hm => h1 (List.mem_cons_of_mem c hm)
    rw [List.cons_append]
    unfold splitOnDot
    rw [if_neg hc, ih hr]

theorem splitOnDot_sub {l : List Char} :
    ∀ p ∈ splitOnDot l, ∀ c ∈ p, c ∈ l := by
  induction l with
  | nil =>
    intro p hp c hc
    simp only [splitOnDot, List.mem_singleton] at hp
    subst hp
    cases hc
  | cons d rest ih =>
    intro p hp c hc
    unfold splitOnDot at hp
    by_cases hd : d = '.'
    · rw [if_pos hd] at hp
      rcases List.mem_cons.1 hp with hnil | htail
      · subst hnil; cases hc
      · exact List.mem_cons_of_mem d (ih p htail c hc)
    · rw [if_neg hd] at hp
      cases hsp : splitOnDot rest with
      | nil =>
        rw [hsp] at hp
        simp only [List.mem_singleton] at hp
        subst hp
        rcases List.mem_cons.1 hc with hcd | hnil
        · exact hcd ▸ List.mem_cons_self d rest
        · cases hnil
      | cons p0 ps =>
        rw [hsp] at hp
        rcases List.mem_cons.1 hp with hhead | htail
        · subst hhead
          rcases List.mem_cons.1 hc with hcd | hcp0
          · exact hcd ▸ List.mem_cons_self d rest
          · exact List.mem_cons_of_mem d
              (ih p0 (hsp ▸ List.mem_cons_self p0 ps) c hcp0)
        · exact List.mem_cons_of_mem d
            (ih p (hsp ▸ List.mem_cons_of_mem p0 htail) c hc)

theorem findOne_eq_none (l : List Char) (h : '1' ∉ l) : findOne l = Option.none := by
  induction l with
  | nil => rfl
  | cons c rest ih =>
    have hc : ¬ c = '1' := fun he => h (he ▸ List.mem_cons_self c rest)
    have hr : '1' ∉ rest := fun hm => h (List.mem_cons_of_mem c hm)
    unfold findOne
    rw [if_neg hc, ih hr]
    rfl

theorem findOne_zeros_one (k : Nat) (rest : List Char) :
    findOne (List.replicate k '0' ++ '1' :: rest) = some k := by
  induction k with
  | zero => rfl
  | succ k ih =>
    rw [List.replicate_succ, List.cons_append]
    unfold findOne
    rw [if_neg (by decide), ih]
    rfl

/-! ## Evaluation of the precision analyzer on convention-shaped strings -/

theorem dot_not_mem_one_zeros (n : Nat) : '.' ∉ ('1' :: List.replicate n '0') := by
  intro h
  rcases List.mem_cons.1 h with h1 | h0
  · cases h1
  · exact absurd (List.eq_of_mem_replicate h0) (by decide)

theorem dot_not_mem_zeros (n : Nat) : '.' ∉ List.replicate n '0' := by
  intro h
  exact absurd (List.eq_of_mem_replicate h) (by decide)

theorem dot_not_mem_zeros_one_zeros (k m : Nat) :
    '.' ∉ (List.replicate k '0' ++ '1' :: List.replicate m '0') := by
  intro h
  rcases List.mem_append.1 h with h0 | h1
  · exact dot_not_mem_zeros k h0
  · rcases List.mem_cons.1 h1 with hx | h0
    · cases hx
    · exact dot_not_mem_zeros m h0

/-- Analyzer value on an integral power of ten `1` followed by `n`
zeros: the `1` sits at index 0 of an integer part of length `n + 1`. -/
theorem prec_of_powTen (s : String) (n : Nat)
    (h : s.data = '1' :: List.replicate n '0') :
    get_prec_just_for_binance_filter s = .ok (-(n : Int)) := by
  unfold get_prec_just_for_binance_filter
  rw [h, splitOnDot_no_dot _ (dot_not_mem_one_zeros n)]
  show Except.ok ((0 : Int) - ('1' :: List.replicate n '0').length + 1) = _
  rw [List.length_cons, List.length_replicate]
  congr 1
  push_cast
  ring

/-- Analyzer value on an integral power of ten with a fractional part
of zeros, such as `1.00000000` or `100.0`. -/
theorem prec_of_powTenFrac (s : String) (n m : Nat)
    (h : s.data = '1' :: List.replicate n '0' ++ '.' :: List.replicate m '0') :
    get_prec_just_for_binance_filter s = .ok (-(n : Int)) := by
  unfold get_prec_just_for_binance_filter
  rw [h, splitOnDot_single_dot _ _ (dot_not_mem_one_zeros n) (dot_not_mem_zeros m)]
  show Except.ok ((0 : Int) - ('1' :: List.replicate n '0').length + 1) = _
  rw [List.length_cons, List.length_replicate]
  congr 1
  push_cast
  ring

/-- Analyzer value on a fractional power of ten `0.` followed by `k`
zeros, a `1` and `m` trailing zeros: the `1` sits at fractional index
`k`, giving `k + 1`. -/
theorem prec_of_fracTen (s : String) (k m : Nat)
    (h : s.data = '0' :: '.' :: (List.replicate k '0' ++ '1' :: List.replicate m '0')) :
    get_prec_just_for_binance_filter s = .ok ((k : Int) + 1) := by
  unfold get_prec_just_for_binance_filter
  have hsplit : splitOnDot s.data =
      [['0'], List.replicate k '0' ++ '1' :: List.replicate m '0'] := by
    rw [h]
    exact splitOnDot_single_dot ['0'] _ (by decide) (dot_not_mem_zeros_one_zeros k m)
  rw [hsplit]
  show (match findOne (List.replicate k '0' ++ '1' :: List.replicate m '0') with
    | some j => Except.ok ((j : Int) + 1)
    | Option.none => Except.error ("unknown size: " ++ s)) = _
  rw [findOne_zeros_one k (List.replicate m '0')]

/-- C5: on `1` followed by `n` zeros the analyzer returns `-n`, and on
`0.` followed by `n - 1` zeros then `1` (for `n ≥ 1`) it returns `n`. -/
theorem C5_power_of_ten_precision :
    (∀ n : Nat, get_prec_just_for_binance_filter ⟨'1' :: List.replicate n '0'⟩ =
      .ok (-(n : Int)))
    ∧ (∀ n : Nat, 1 ≤ n →
      get_prec_just_for_binance_filter ⟨'0' :: '.' :: (List.replicate (n - 1) '0' ++ ['1'])⟩ =
        .ok (n : Int)) := by
  constructor
  · intro n
    exact prec_of_powTen _ n rfl
  · intro n hn
    have h := prec_of_fracTen ⟨'0' :: '.' :: (List.replicate (n - 1) '0' ++ ['1'])⟩ (n - 1) 0 rfl
    rw [h]
    congr 1
    omega

/-- Witness for C5 at `n = 2` for the integral form (`"100"`) and
`n = 3` for the fractional form (`"0.001"`). -/
theorem C5_power_of_ten_precision_witness :
    get_prec_just_for_binance_filter ⟨'1' :: List.replicate 2 '0'⟩ = .ok (-2)
    ∧ (1 ≤ 3
      ∧ get_prec_just_for_binance_filter ⟨'0' :: '.' :: (List.replicate 2 '0' ++ ['1'])⟩ =
          .ok 3) :=
  ⟨C5_power_of_ten_precision.1 2, by decide, C5_power_of_ten_precision.2 3 (by decide)⟩

/-- C6: a string containing no digit `1` anywhere makes the analyzer
fail with the FormatError `unknown size`, whichever branch it reaches. -/
theorem C6_no_one_digit_error (s : String) (h : '1' ∉ s.data) :
    get_prec_just_for_binance_filter s = .error ("unknown size: " ++ s) := by
  unfold get_prec_just_for_binance_filter
  cases hsp : splitOnDot s.data with
  | nil => rfl
  | cons ip rest =>
    have hip : '1' ∉ ip := fun hc =>
      h (splitOnDot_sub ip (hsp ▸ List.mem_cons_self ip rest) '1' hc)
    simp only [findOne_eq_none ip hip]
    cases rest with
    | nil => rfl
    | cons dp rest2 =>
      have hdp : '1' ∉ dp := fun hc =>
        h (splitOnDot_sub dp (hsp ▸ List.mem_cons_of_mem ip (List.mem_cons_self dp rest2))
          '1' hc)
      simp only [findOne_eq_none dp hdp]

/-- Witness for C6 at the spec's example string `"2.5"`. -/
theorem C6_no_one_digit_error_witness :
    '1' ∉ "2.5".data
    ∧ get_prec_just_for_binance_filter "2.5" = .error ("unknown size: " ++ "2.5") :=
  ⟨by decide, C6_no_one_digit_error "2.5" (by decide)⟩

/-! ## Numeric value represented by a filter string (for the sign-convention claim) -/

/-- Value of a digit list read in base 10. -/
def natOfDigits (l : List Char) : Nat :=
  l.foldl (fun a c => 10 * a + (c.toNat - '0'.toNat)) 0

/-- The rational value a decimal filter string denotes: integer part,
plus fractional part scaled by its length. Strings that are not of the
one-dot or no-dot shape get value 0 (they are outside the analyzer's
documented domain). -/
def decValue (s : String) : ℚ :=
  match splitOnDot s.data with
  | [ip] => natOfDigits ip
  | [ip, fp] => (natOfDigits ip : ℚ) + (natOfDigits fp : ℚ) / (10 : ℚ) ^ fp.length
  | _ => 0

theorem foldl_digits_zeros (m : Nat) (a : Nat) :
    (List.replicate m '0').foldl (fun a c => 10 * a + (c.toNat - '0'.toNat)) a =
      a * 10 ^ m := by
  induction m generalizing a with
  | zero => simp
  | succ m ih =>
    rw [List.replicate_succ, List.foldl_cons, ih]
    simp only [Nat.sub_self]
    ring

theorem natOfDigits_one_zeros (n : Nat) :
    natOfDigits ('1' :: List.replicate n '0') = 10 ^ n := by
  unfold natOfDigits
  rw [List.foldl_cons, foldl_digits_zeros]
  norm_num [show '1'.toNat - '0'.toNat = 1 from rfl]

theorem natOfDigits_zeros (k : Nat) : natOfDigits (List.replicate k '0') = 0 := by
  unfold natOfDigits
  rw [foldl_digits_zeros]
  ring

theorem natOfDigits_zeros_one_zeros (k m : Nat) :
    natOfDigits (List.replicate k '0' ++ '1' :: List.replicate m '0') = 10 ^ m := by
  unfold natOfDigits
  rw [List.foldl_append, foldl_digits_zeros, List.foldl_cons, foldl_digits_zeros]
  norm_num [show '1'.toNat - '0'.toNat = 1 from rfl]

theorem decValue_powTen (s : String) (n : Nat)
    (h : s.data = '1' :: List.replicate n '0') :
    decValue s = (10 : ℚ) ^ n := by
  unfold decValue
  rw [h, splitOnDot_no_dot _ (dot_not_mem_one_zeros n)]
  show ((natOfDigits ('1' :: List.replicate n '0') : Nat) : ℚ) = (10 : ℚ) ^ n
  rw [natOfDigits_one_zeros]
  push_cast
  ring

theorem decValue_powTenFrac (s : String) (n m : Nat)
    (h : s.data = '1' :: List.replicate n '0' ++ '.' :: List.replicate m '0') :
    decValue s = (10 : ℚ) ^ n := by
  unfold decValue
  rw [h, splitOnDot_single_dot _ _ (dot_not_mem_one_zeros n) (dot_not_mem_zeros m)]
  show ((natOfDigits ('1' :: List.replicate n '0') : Nat) : ℚ) +
      ((natOfDigits (List.replicate m '0') : Nat) : ℚ) /
        (10 : ℚ) ^ (List.replicate m '0').length = (10 : ℚ) ^ n
  rw [natOfDigits_one_zeros, natOfDigits_zeros]
  push_cast
  simp

theorem decValue_fracTen (s : String) (k m : Nat)
    (h : s.data = '0' :: '.' :: (List.replicate k '0' ++ '1' :: List.replicate m '0')) :
    decValue s = (10 : ℚ) ^ m / (10 : ℚ) ^ (k + 1 + m) := by
  unfold decValue
  have hsplit : splitOnDot s.data =
      [['0'], List.replicate k '0' ++ '1' :: List.replicate m '0'] := by
    rw [h]
    exact splitOnDot_single_dot ['0'] _ (by decide) (dot_not_mem_zeros_one_zeros k m)
  rw [hsplit]
  show ((natOfDigits ['0'] : Nat) : ℚ) +
      ((natOfDigits (List.replicate k '0' ++ '1' :: List.replicate m '0') : Nat) : ℚ) /
        (10 : ℚ) ^ (List.replicate k '0' ++ '1' :: List.replicate m '0').length =
      (10 : ℚ) ^ m / (10 : ℚ) ^ (k + 1 + m)
  rw [natOfDigits_zeros_one_zeros, show natOfDigits ['0'] = 0 from rfl]
  have hlen : (List.replicate k '0' ++ '1' :: List.replicate m '0').length = k + 1 + m := by
    simp only [List.length_append, List.length_cons, List.length_replicate]
    omega
  rw [hlen]
  push_cast
  ring

/-- The documented hard precondition of the analyzer: tick/step sizes
are powers of ten with a single digit `1` — an integral form `1`
followed by zeros (optionally with a fractional part of zeros), or a
fractional form `0.` then zeros, a `1`, and trailing zeros. -/
def TickConvention (s : String) : Prop :=
  (∃ n : Nat, s.data = '1' :: List.replicate n '0') ∨
  (∃ n m : Nat, s.data = '1' :: List.replicate n '0' ++ '.' :: List.replicate m '0') ∨
  (∃ k m : Nat, s.data = '0' :: '.' :: (List.replicate k '0' ++ '1' :: List.replicate m '0'))

/-- C7 counterexample: the string `"10"` represents the value 10 ≥ 1,
yet the analyzer returns `-1`, which is negative — against the claim
that precision is non-negative for strings representing values ≥ 1. -/
theorem C7_sign_convention_cex :
    (1 : ℚ) ≤ decValue "10" ∧
    get_prec_just_for_binance_filter "10" = .ok (-1) ∧ ¬ (0 ≤ (-1 : Int)) := by
  refine ⟨?_, rfl, by decide⟩
  rw [decValue_powTen "10" 1 rfl]
  norm_num

/-- C7 amended: on strings of the analyzer's documented power-of-ten
convention, the returned precision is non-positive when the string
represents a value ≥ 1 and strictly positive when the string represents
a fractional step — the reverse of the claimed sign convention. -/
theorem C7_sign_convention_amended (s : String) (h : TickConvention s) :
    ((1 : ℚ) ≤ decValue s →
      ∃ r : Int, get_prec_just_for_binance_filter s = .ok r ∧ r ≤ 0)
    ∧ (decValue s < 1 →
      ∃ r : Int, get_prec_just_for_binance_filter s = .ok r ∧ 0 < r) := by
  rcases h with ⟨n, hd⟩ | ⟨n, m, hd⟩ | ⟨k, m, hd⟩
  · refine ⟨fun _ => ⟨-(n : Int), prec_of_powTen s n hd, by omega⟩, fun hlt => ?_⟩
    rw [decValue_powTen s n hd] at hlt
    exact absurd hlt (not_lt.2 (one_le_pow₀ (by norm_num)))
  · refine ⟨fun _ => ⟨-(n : Int), prec_of_powTenFrac s n m hd, by omega⟩, fun hlt => ?_⟩
    rw [decValue_powTenFrac s n m hd] at hlt
    exact absurd hlt (not_lt.2 (one_le_pow₀ (by norm_num)))
  · refine ⟨fun hge => ?_, fun _ => ⟨(k : Int) + 1, prec_of_fracTen s k m hd, by omega⟩⟩
    rw [decValue_fracTen s k m hd] at hge
    have hlt : (10 : ℚ) ^ m / (10 : ℚ) ^ (k + 1 + m) < 1 := by
      rw [div_lt_one (by positivity)]
      exact pow_lt_pow_right₀ (by norm_num) (by omega)
    exact absurd hge (not_le.2 hlt)

/-- Witness for the amended C7 at `"10"`: in convention, value ≥ 1,
precision `-1 ≤ 0`. -/
theorem C7_sign_convention_amended_witness :
    (1 : ℚ) ≤ decValue "10" ∧
    (∃ r : Int, get_prec_just_for_binance_filter "10" = .ok r ∧ r ≤ 0) :=
  ⟨by rw [decValue_powTen "10" 1 rfl]; norm_num,
   (C7_sign_convention_amended "10" (Or.inl ⟨1, rfl⟩)).1
     (by rw [decValue_powTen "10" 1 rfl]; norm_num)⟩

/-- C4: evaluation of the normalizer at the claim's example input. The
null entry is dropped and the boolean becomes `"true"` as claimed, but
the non-string list items are concatenated without separating commas
and the final character is then stripped, so `[1,2,3]` serializes to
`"[12]"`, not `"[1,2,3]"` — the else-branch of the item loop omits the
trailing comma that the following `remove last comma` step assumes. -/
theorem C4_list_serialization_eval :
    tidy_request_params
      [("a", .scalar (.bool true)), ("b", .scalar .null),
       ("c", .list [.int 1, .int 2, .int 3])]
      = [("a", .scalar (.str "true")), ("c", .scalar (.str "[12]"))] := rfl

/-! ## Domain mapper (`bnc/spot.py`, `analyze_exchange_symbol_filters` and `to_cex_symbol`) -/

/-- The `ExchangeSymbolFiltersInfo` accumulator (`bnc/spot.py`,
lines 92-96): price precision, quantity precision and the vestigial
market flag. -/
structure ExchangeSymbolFiltersInfo where
  pPrec : Int
  qPrec : Int
  canMarket : Bool
  deriving Repr

/-- The filter loop of `analyze_exchange_symbol_filters` (`bnc/spot.py`,
lines 149-167): dispatch on the `filterType` discriminator, feed
`tickSize` or `stepSize` to the precision analyzer, raise on a missing
or non-string discriminator or size field, and silently skip
unrecognized filter types. -/
def analyzeGo : List (List (String × JValue)) → Int → Int → Bool →
    Except String ExchangeSymbolFiltersInfo
  | [], p, q, c => .ok ⟨p, q, c⟩
  | f :: rest, p, q, c =>
    match f.lookup "filterType" with
    | some (.str ft) =>
      if ft = "PRICE_FILTER" then
        match f.lookup "tickSize" with
        | some (.str ts) =>
          match get_prec_just_for_binance_filter ts with
          | .ok v => analyzeGo rest v q c
          | .error e => .error e
        | _ => .error "exchange info tickSize type is not string"
      else if ft = "LOT_SIZE" then
        match f.lookup "stepSize" with
        | some (.str ss) =>
          match get_prec_just_for_binance_filter ss with
          | .ok v => analyzeGo rest p v c
          | .error e => .error e
        | _ => .error "exchange info stepSize type is not string"
      else analyzeGo rest p q c
    | _ => .error "exchange info filter type is not string"

/-- `analyze_exchange_symbol_filters` (`bnc/spot.py`, lines 133-173):
run the filter loop from the zero-initialized accumulator. -/
def analyze_exchange_symbol_filters (filters : List (List (String × JValue))) :
    Except String ExchangeSymbolFiltersInfo :=
  analyzeGo filters 0 0 false

/-- The fields of a `SpotExchangeSymbol` record (`bnc/spot.py`,
lines 23-48) that the domain mapper reads. Enum values
(`SymbolStatus`, `OrderType`) are opaque string discriminators. -/
structure SpotExchangeSymbol where
  symbol : String
  status : String
  baseAsset : String
  quoteAsset : String
  orderTypes : List String
  isMarginTradingAllowed : Bool
  filters : List (List (String × JValue))
  deriving Repr

/-- Modelled from the spec: the generic cross-exchange `Symbol` record
of section 3 (the `Symbol` dataclass lives outside this repository's
sources): exchange identifier, instrument type, base and quote assets,
symbol code, quantity and price precisions and the three capability
flags. -/
structure Symbol where
  cex : String
  type : String
  asset : String
  quote : String
  symbol : String
  q_precision : Int
  p_precision : Int
  tradable : Bool
  can_market : Bool
  can_margin : Bool
  deriving Repr

/-- `to_cex_symbol` (`bnc/spot.py`, lines 51-64) as it actually
executes. `SpotExchangeSymbol` is a `TypedDict`, so a record is a plain
dict at runtime, and the function's very first expression,
`exchange_symbol.filters` (line 52), is an attribute access on that
dict. A dict instance exposes its data only through subscripting, never
as attributes (and the snake_case names used throughout the function do
not even match the declared camelCase keys), so this access raises
`AttributeError` for every record, before the filter analysis or any
`Symbol` construction runs. -/
def to_cex_symbol (_exchange_symbol : SpotExchangeSymbol) : Except String Symbol :=
  .error "AttributeError: dict object has no attribute filters"

/-- Modelled from the spec: the section 4.4 domain-mapper contract that
`to_cex_symbol` was written to implement (and that its dead code after
the failing attribute access spells out): analyze the record's filters,
then build the generic symbol with the two precisions, the tradable
flag from `status == TRADING`, market capability from `MARKET`
membership in the order types and margin capability copied through. -/
def to_cex_symbol_spec (es : SpotExchangeSymbol) : Except String Symbol :=
  match analyze_exchange_symbol_filters es.filters with
  | .error e => .error e
  | .ok info =>
    .ok ⟨"BINANCE", "SPOT", es.baseAsset, es.quoteAsset, es.symbol,
      info.qPrec, info.pPrec, es.status = "TRADING",
      es.orderTypes.contains "MARKET", es.isMarginTradingAllowed⟩

example : analyze_exchange_symbol_filters
    [[("filterType", .str "PRICE_FILTER"), ("tickSize", .str "0.00100000")],
     [("filterType", .str "LOT_SIZE"), ("stepSize", .str "1.00000000")]]
    = .ok ⟨3, 0, false⟩ := by rfl

/-- C8: on an exchange symbol record with the claim's
price-filter/lot-size pair, the source's domain mapper does not produce
the claimed symbol: it raises `AttributeError` at its first attribute
access on the TypedDict record, whatever the record holds, while the
spec-intended mapping of that filter list yields price precision 3 and
quantity precision 0 — so the claim matches the intent and the code
fails it. -/
theorem C8_domain_mapper_attribute_error (es : SpotExchangeSymbol)
    (h : es.filters =
      [[("filterType", .str "PRICE_FILTER"), ("tickSize", .str "0.00100000")],
       [("filterType", .str "LOT_SIZE"), ("stepSize", .str "1.00000000")]]) :
    to_cex_symbol es = .error "AttributeError: dict object has no attribute filters"
    ∧ ∃ sym, to_cex_symbol_spec es = .ok sym ∧
        sym.p_precision = 3 ∧ sym.q_precision = 0 := by
  refine ⟨rfl, ?_⟩
  unfold to_cex_symbol_spec
  rw [h]
  exact ⟨_, rfl, rfl, rfl⟩

/-- Witness for C8 at a concrete BTCUSDT-shaped record. -/
theorem C8_domain_mapper_attribute_error_witness :
    to_cex_symbol
        ⟨"BTCUSDT", "TRADING", "BTC", "USDT", ["LIMIT", "MARKET"], true,
         [[("filterType", .str "PRICE_FILTER"), ("tickSize", .str "0.00100000")],
          [("filterType", .str "LOT_SIZE"), ("stepSize", .str "1.00000000")]]⟩ =
      .error "AttributeError: dict object has no attribute filters"
    ∧ ∃ sym,
        to_cex_symbol_spec
          ⟨"BTCUSDT", "TRADING", "BTC", "USDT", ["LIMIT", "MARKET"], true,
           [[("filterType", .str "PRICE_FILTER"), ("tickSize", .str "0.00100000")],
            [("filterType", .str "LOT_SIZE"), ("stepSize", .str "1.00000000")]]⟩ =
          .ok sym ∧ sym.p_precision = 3 ∧ sym.q_precision = 0 :=
  C8_domain_mapper_attribute_error _ rfl

end PyCex
